import Mathlib

set_option maxRecDepth 8000

/- Shallow embedding of the Play Store comments service
   (src/services/playStoreAPI.js, src/routes/comments.js and the
   validation middleware), with theorems about the review-retrieval
   pipeline.  JavaScript strings are modelled as lists of characters;
   JavaScript numbers that can be NaN are modelled by the type JSNum. -/

namespace PlayStore

/-- A JavaScript string, modelled as a list of characters. -/
abbrev Str := List Char

/-- ASCII whitespace recognized by the JavaScript regex class \s
    (and by String.prototype.trim). -/
def isSpaceChar (c : Char) : Bool :=
  c == ' ' || c == '\t' || c == '\n' || c == '\r' || c == '\x0b' || c == '\x0c'

/-- Line terminators, which the regex metacharacter dot does not match. -/
def isNewlineChar (c : Char) : Bool := c == '\n' || c == '\r'

/-- ASCII decimal digit, the regex class \d. -/
def isDigitChar (c : Char) : Bool := '0' ≤ c && c ≤ '9'

/-- ASCII letter. -/
def isAlphaChar (c : Char) : Bool := ('a' ≤ c && c ≤ 'z') || ('A' ≤ c && c ≤ 'Z')

/-- ASCII letter or digit. -/
def isAlnumChar (c : Char) : Bool := isAlphaChar c || isDigitChar c

/-- Lower-casing of ASCII letters, used to model the regex flag i. -/
def lowerChar (c : Char) : Char :=
  if 'A' ≤ c ∧ c ≤ 'Z' then Char.ofNat (c.toNat + 32) else c

/-- Character comparison used when matching a pattern literal: the flag i
    makes letters case-insensitive, every other character matches exactly. -/
def litCharMatch (p c : Char) : Bool :=
  if isAlphaChar p then lowerChar c == lowerChar p else c == p

/-- A JavaScript number that is either NaN or an integer.  All numbers
    reaching the arithmetic of the service (parseInt results, lengths, limits)
    are integral or NaN. -/
inductive JSNum where
  | nan : JSNum
  | int (n : Int) : JSNum
deriving Repr, DecidableEq

/-- The comparison len >= limit as JavaScript evaluates it: any comparison
    with NaN is false. -/
def jsGe (len : Nat) (limit : JSNum) : Bool :=
  match limit with
  | .nan => false
  | .int m => (len : Int) ≥ m

/-- Math.min on JavaScript numbers: NaN is absorbing. -/
def jsMin (a b : JSNum) : JSNum :=
  match a, b with
  | .nan, _ => .nan
  | _, .nan => .nan
  | .int x, .int y => .int (min x y)

/-- Array.prototype.slice(0, e): the end index is converted with
    ToIntegerOrInfinity (NaN becomes 0) and negative values count from the
    end of the array. -/
def jsSlice {α : Type} (xs : List α) (e : JSNum) : List α :=
  match e with
  | .nan => []
  | .int n => if n < 0 then xs.take ((xs.length : Int) + n).toNat else xs.take n.toNat

/-- Numeric value of a digit string. -/
def digitsVal (ds : Str) : Nat :=
  ds.foldl (fun a c => a * 10 + (c.toNat - '0'.toNat)) 0

/-- JavaScript parseInt on a string: skip whitespace, optional sign,
    then a maximal run of leading decimal digits; no digits gives NaN. -/
def jsParseInt (s : Str) : JSNum :=
  let t := s.dropWhile isSpaceChar
  match t with
  | '-' :: r =>
    let ds := r.takeWhile isDigitChar
    if ds.isEmpty then .nan else .int (-(digitsVal ds : Int))
  | '+' :: r =>
    let ds := r.takeWhile isDigitChar
    if ds.isEmpty then .nan else .int (digitsVal ds)
  | _ =>
    let ds := t.takeWhile isDigitChar
    if ds.isEmpty then .nan else .int (digitsVal ds)

/-- Provenance tag of a review record (the source field). -/
inductive RSource where
  | api : RSource
  | html : RSource
  | sample : RSource
deriving Repr, DecidableEq, Inhabited

/-- The canonical review record produced by the service
    (see the comment objects built in src/services/playStoreAPI.js). -/
structure Review where
  text : Str
  rating : Int
  date : Str
  author : Str
  helpful : Int
  source : RSource
deriving Repr, DecidableEq, Inhabited

/-- The fixed sample pool of PlayStoreAPI.generateSampleReviews
    (src/services/playStoreAPI.js lines 315-396). -/
def sampleReviews : List Review :=
  [ { text := ("This app is absolutely amazing! I use it every day and it works perfectly. The interface is clean and intuitive, and all the features I need are easily accessible. Highly recommend!").data
    , rating := 5, date := ("2024-01-15").data, author := ("Sarah Johnson").data
    , helpful := 24, source := .sample }
  , { text := ("Great app overall, but there are a few bugs that need fixing. Sometimes it crashes when I try to upload photos, and the search function could be improved. Otherwise, it\x27s pretty good.").data
    , rating := 4, date := ("2024-01-14").data, author := ("Mike Chen").data
    , helpful := 18, source := .sample }
  , { text := ("I\x27ve been using this app for months now and it\x27s been a game-changer for me. The performance is excellent and the customer support team is very responsive. Love it!").data
    , rating := 5, date := ("2024-01-13").data, author := ("Emily Rodriguez").data
    , helpful := 31, source := .sample }
  , { text := ("The app is okay, but it\x27s missing some important features that I need for work. The UI is a bit outdated and could use a modern refresh. Hoping for updates soon.").data
    , rating := 3, date := ("2024-01-12").data, author := ("David Kim").data
    , helpful := 12, source := .sample }
  , { text := ("This is the best app I\x27ve ever used! Fast, reliable, and packed with useful features. The developers really know what they\x27re doing. Five stars all the way!").data
    , rating := 5, date := ("2024-01-11").data, author := ("Lisa Thompson").data
    , helpful := 42, source := .sample }
  , { text := ("Not bad, but could be better. The app works most of the time, but occasionally freezes. The design is nice though, and it\x27s easy to navigate.").data
    , rating := 3, date := ("2024-01-10").data, author := ("Robert Wilson").data
    , helpful := 8, source := .sample }
  , { text := ("Excellent app with outstanding performance! I\x27ve tried many alternatives but this one stands out. The features are exactly what I need and the app is very stable.").data
    , rating := 5, date := ("2024-01-09").data, author := ("Jennifer Lee").data
    , helpful := 27, source := .sample }
  , { text := ("The app has potential but needs work. There are too many ads and the free version is very limited. The premium features are expensive for what you get.").data
    , rating := 2, date := ("2024-01-08").data, author := ("Alex Martinez").data
    , helpful := 15, source := .sample }
  , { text := ("I\x27m really impressed with this app! It\x27s fast, user-friendly, and has all the features I was looking for. The developers are constantly improving it too.").data
    , rating := 5, date := ("2024-01-07").data, author := ("Chris Anderson").data
    , helpful := 33, source := .sample }
  , { text := ("Good app, but the interface could be more intuitive. Some features are hidden and hard to find. Once you get used to it though, it\x27s quite useful.").data
    , rating := 4, date := ("2024-01-06").data, author := ("Maria Garcia").data
    , helpful := 19, source := .sample } ]

/-- PlayStoreAPI.generateSampleReviews: returns
    sampleReviews.slice(0, Math.min(limit, sampleReviews.length)). -/
def generateSampleReviews (limit : JSNum) : List Review :=
  jsSlice sampleReviews (jsMin limit (.int (sampleReviews.length : Int)))

/-- Match a pattern literal against a prefix of the input, character
    comparison given by eqf; returns the consumed original characters and
    the remaining input. -/
def pLitBy (eqf : Char → Char → Bool) : Str → Str → Option (Str × Str)
  | [], cs => some ([], cs)
  | _ :: _, [] => none
  | p :: ps, c :: cs =>
    if eqf p c then
      match pLitBy eqf ps cs with
      | some (m, r) => some (c :: m, r)
      | none => none
    else none

/-- Leftmost occurrence of a literal: returns the characters before the
    occurrence, the occurrence itself, and the rest after it. -/
def splitAtFirstBy (eqf : Char → Char → Bool) (pat : Str) : Str → Option (Str × Str × Str)
  | [] =>
    match pLitBy eqf pat [] with
    | some (m, r) => some ([], m, r)
    | none => none
  | c :: t =>
    match pLitBy eqf pat (c :: t) with
    | some (m, r) => some ([], m, r)
    | none =>
      match splitAtFirstBy eqf pat t with
      | some (pre, m, r) => some (c :: pre, m, r)
      | none => none

/-- Case-insensitive literal match (regex flag i). -/
def pLit (pat cs : Str) : Option (Str × Str) := pLitBy litCharMatch pat cs

/-- Case-insensitive leftmost occurrence. -/
def splitAtFirstCI (pat cs : Str) : Option (Str × Str × Str) :=
  splitAtFirstBy litCharMatch pat cs

/-- Case-insensitive substring test. -/
def containsSubCI (pat cs : Str) : Bool := (splitAtFirstCI pat cs).isSome

/-- Case-sensitive substring test (String.prototype.includes). -/
def containsSubCS (pat cs : Str) : Bool :=
  (splitAtFirstBy (fun p c => p == c) pat cs).isSome

/-- Global regex scan (String.prototype.match with flag g): collect
    non-overlapping matches left to right; where no match starts, advance
    one character.  All matchers used here consume at least one character. -/
def gMatchAux (matchAt : Str → Option (Str × Str)) : Nat → Str → List Str
  | 0, _ => []
  | fuel + 1, cs =>
    match matchAt cs with
    | some (m, r) => m :: gMatchAux matchAt fuel r
    | none =>
      match cs with
      | [] => []
      | _ :: t => gMatchAux matchAt fuel t

/-- Global scan entry point with enough fuel for the whole input. -/
def gMatch (matchAt : Str → Option (Str × Str)) (cs : Str) : List Str :=
  gMatchAux matchAt (cs.length + 1) cs

/-- Literal fragments of the extraction regexes. -/
def scriptOpenLit : Str := ("<script").data

/-- Literal: the quoted reviews key including the colon. -/
def reviewsKeyLit : Str := ("\"reviews\":").data

/-- Literal: closing script tag. -/
def scriptCloseLit : Str := ("</script>").data

/-- Literal: opening div fragment. -/
def divOpenLit : Str := ("<div").data

/-- Literal: the class attribute marker of pattern 1. -/
def classMarkerLit : Str := ("class=\"").data

/-- Literal: the data-testid attribute marker of pattern 3. -/
def testidMarkerLit : Str := ("data-testid=\"").data

/-- Literal: the token review. -/
def reviewLit : Str := ("review").data

/-- Literal: closing div tag. -/
def divCloseLit : Str := ("</div>").data

/-- Literal: the quoted reviewText key including the colon. -/
def reviewTextKeyLit : Str := ("\"reviewText\":").data

/-- Pattern 4, "reviewText":\s*"([^"]+)", at the current position: the
    whole match runs from the opening quote of the key to the closing
    quote of the value. -/
def matchP4At (cs : Str) : Option (Str × Str) :=
  match pLit reviewTextKeyLit cs with
  | none => none
  | some (m1, r1) =>
    let ws := r1.takeWhile isSpaceChar
    match r1.drop ws.length with
    | '"' :: r2 =>
      let txt := r2.takeWhile (fun c => c != '"')
      if txt.isEmpty then none
      else
        match r2.drop txt.length with
        | '"' :: r3 => some (m1 ++ ws ++ '"' :: txt ++ (['"'] : Str), r3)
        | _ => none
    | _ => none

/-- Pattern 2 continuation after the reviews key: \s*(\[.*?\]) where the
    dot does not cross line terminators; returns the consumed characters
    and the rest. -/
def p2AfterKey (cs : Str) : Option (Str × Str) :=
  let ws := cs.takeWhile isSpaceChar
  match cs.drop ws.length with
  | '[' :: r2 =>
    let inner := r2.takeWhile (fun c => c != ']' && !(isNewlineChar c))
    match r2.drop inner.length with
    | ']' :: r3 => some (ws ++ '[' :: inner ++ ([']'] : Str), r3)
    | _ => none
  | _ => none

/-- Pattern 2 lazy search: try each occurrence of the reviews key in turn
    (the lazy [\s\S]*? backtracks to later occurrences when the bracketed
    array or the closing tag cannot be completed). -/
def p2KeyLoop : Nat → Str → Option (Str × Str)
  | 0, _ => none
  | fuel + 1, cs =>
    match splitAtFirstCI reviewsKeyLit cs with
    | none => none
    | some (pre, key, rest) =>
      match p2AfterKey rest with
      | some (mid, r2) =>
        match splitAtFirstCI scriptCloseLit r2 with
        | some (pre2, closeTag, r3) => some (pre ++ key ++ mid ++ pre2 ++ closeTag, r3)
        | none => none
      | none =>
        match p2KeyLoop fuel rest with
        | some (m, r) => some (pre ++ key ++ m, r)
        | none => none

/-- Pattern 2, the script regex with the embedded reviews array, at the
    current position. -/
def matchP2At (cs : Str) : Option (Str × Str) :=
  match pLit scriptOpenLit cs with
  | none => none
  | some (m1, r1) =>
    let attrs := r1.takeWhile (fun c => c != '>')
    match r1.drop attrs.length with
    | '>' :: r2 =>
      match p2KeyLoop (r2.length + 1) r2 with
      | some (m2, r3) => some (m1 ++ attrs ++ '>' :: m2, r3)
      | none => none
    | _ => none

/-- Offsets inside a string at which a literal occurs (case-insensitive). -/
def markerPositionsAux (marker : Str) (i : Nat) : Str → List Nat
  | [] => if (pLit marker []).isSome then [i] else []
  | c :: t =>
    (if (pLit marker (c :: t)).isSome then [i] else []) ++ markerPositionsAux marker (i + 1) t

/-- All offsets of the attribute marker inside the no-gt run of a div tag. -/
def markerPositions (marker : Str) (runA : Str) : List Nat := markerPositionsAux marker 0 runA

/-- Continuation of patterns 1 and 3 from a chosen marker occurrence:
    [^"]* review [^"]* " [^>]* > ([\s\S]*?) </div>.  Returns the rest of
    the input after the closing div tag. -/
def divContAt (marker : Str) (r1 : Str) (p : Nat) : Option Str :=
  let afterMarker := r1.drop (p + marker.length)
  let runB := afterMarker.takeWhile (fun c => c != '"')
  if containsSubCI reviewLit runB then
    match afterMarker.drop runB.length with
    | '"' :: afterQuote =>
      let runC := afterQuote.takeWhile (fun c => c != '>')
      match afterQuote.drop runC.length with
      | '>' :: afterGt =>
        match splitAtFirstCI divCloseLit afterGt with
        | some (_, _, rest) => some rest
        | none => none
      | _ => none
    | _ => none
  else none

/-- Try marker occurrences in greedy order (the [^>]* before the marker is
    greedy, so later occurrences are preferred). -/
def divTryCands (marker : Str) (r1 : Str) : List Nat → Option Str
  | [] => none
  | p :: ps =>
    match divContAt marker r1 p with
    | some rest => some rest
    | none => divTryCands marker r1 ps

/-- Patterns 1 and 3, the div container regexes, at the current position;
    marker is class=" for pattern 1 and data-testid=" for pattern 3. -/
def matchDivAt (marker : Str) (cs : Str) : Option (Str × Str) :=
  match pLit divOpenLit cs with
  | none => none
  | some (_, r1) =>
    let runA := r1.takeWhile (fun c => c != '>')
    match divTryCands marker r1 (markerPositions marker runA).reverse with
    | some rest => some (cs.take (cs.length - rest.length), rest)
    | none => none

/-- Replace every <[^>]*> tag by a space (the first replace in
    extractCommentFromHTML); an unterminated tag is left in place. -/
def stripTagsAux : Nat → Str → Str
  | 0, cs => cs
  | fuel + 1, cs =>
    match cs with
    | [] => []
    | '<' :: t =>
      let inner := t.takeWhile (fun c => c != '>')
      match t.drop inner.length with
      | '>' :: rest => ' ' :: stripTagsAux fuel rest
      | _ => '<' :: stripTagsAux fuel t
    | c :: t => c :: stripTagsAux fuel t

/-- Entry point of the tag-stripping replace. -/
def stripTags (cs : Str) : Str := stripTagsAux (cs.length + 1) cs

/-- Replace every whitespace run by one space (the second replace). -/
def collapseWsAux : Nat → Str → Str
  | 0, cs => cs
  | _ + 1, [] => []
  | fuel + 1, c :: t =>
    if isSpaceChar c then ' ' :: collapseWsAux fuel (t.dropWhile isSpaceChar)
    else c :: collapseWsAux fuel t

/-- Entry point of the whitespace-collapsing replace. -/
def collapseWs (cs : Str) : Str := collapseWsAux (cs.length + 1) cs

/-- String.prototype.trim. -/
def trimWs (cs : Str) : Str :=
  ((cs.dropWhile isSpaceChar).reverse.dropWhile isSpaceChar).reverse

/-- Characters of the regex class ["\s]. -/
def isQuoteOrSpace (c : Char) : Bool := c == '"' || isSpaceChar c

/-- Literal: the rating key searched inside a review block. -/
def ratingKeyLit : Str := ("rating").data

/-- Literal: the author key searched inside a review block. -/
def authorKeyLit : Str := ("author").data

/-- Literal: the default author. -/
def unknownLit : Str := ("Unknown").data

/-- Literals of the navigation heuristic (case-sensitive includes). -/
def gamesLit : Str := ("Games").data

/-- Literal: Apps. -/
def appsLit : Str := ("Apps").data

/-- Literal: Movies. -/
def moviesLit : Str := ("Movies").data

/-- First match of rating["\s]*:["\s]*(\d+) (flag i, not global): try each
    occurrence of the key until the colon and a digit run follow. -/
def findRatingAux : Nat → Str → Option Int
  | 0, _ => none
  | fuel + 1, cs =>
    match splitAtFirstCI ratingKeyLit cs with
    | none => none
    | some (_, _, rest) =>
      match rest.dropWhile isQuoteOrSpace with
      | ':' :: b =>
        let ds := (b.dropWhile isQuoteOrSpace).takeWhile isDigitChar
        if ds.isEmpty then findRatingAux fuel rest else some ((digitsVal ds : Nat) : Int)
      | _ => findRatingAux fuel rest

/-- Entry point of the rating search. -/
def findRating (cs : Str) : Option Int := findRatingAux (cs.length + 1) cs

/-- Indices of double quotes in a string, starting at i. -/
def quoteIdxAux (i : Nat) : Str → List Nat
  | [] => []
  | c :: t => (if c == '"' then [i] else []) ++ quoteIdxAux (i + 1) t

/-- Candidate opening-quote positions for author["\s]*:["\s]*"([^"]+)":
    the greedy ["\s]* backtracks from the last quote of the run. -/
def authorQuoteCands (run : Str) : List Nat := (quoteIdxAux 0 run).reverse

/-- Try candidate opening quotes: the group [^"]+ must be non-empty and
    closed by another quote. -/
def findAuthorTry (run tail : Str) : List Nat → Option Str
  | [] => none
  | k :: ks =>
    let afterQ := run.drop (k + 1) ++ tail
    let grp := afterQ.takeWhile (fun c => c != '"')
    if grp.isEmpty then findAuthorTry run tail ks
    else
      match afterQ.drop grp.length with
      | '"' :: _ => some grp
      | _ => findAuthorTry run tail ks

/-- First match of author["\s]*:["\s]*"([^"]+)" (flag i, not global). -/
def findAuthorAux : Nat → Str → Option Str
  | 0, _ => none
  | fuel + 1, cs =>
    match splitAtFirstCI authorKeyLit cs with
    | none => none
    | some (_, _, rest) =>
      match rest.dropWhile isQuoteOrSpace with
      | ':' :: b =>
        let run := b.takeWhile isQuoteOrSpace
        let tail := b.drop run.length
        match findAuthorTry run tail (authorQuoteCands run) with
        | some grp => some grp
        | none => findAuthorAux fuel rest
      | _ => findAuthorAux fuel rest

/-- Entry point of the author search. -/
def findAuthor (cs : Str) : Option Str := findAuthorAux (cs.length + 1) cs

/-- The textContent binding of extractCommentFromHTML: strip tags,
    collapse whitespace, trim. -/
def commentText (html : Str) : Str := trimWs (collapseWs (stripTags html))

/-- The rating binding of extractCommentFromHTML: the parsed digits or 0. -/
def ratingOf (html : Str) : Int :=
  match findRating html with
  | some n => n
  | none => 0

/-- The author binding of extractCommentFromHTML: the captured group or
    the Unknown default. -/
def authorOf (html : Str) : Str :=
  match findAuthor html with
  | some a => a
  | none => unknownLit

/-- PlayStoreAPI.extractCommentFromHTML: strip tags, collapse whitespace,
    trim; drop blocks under 10 characters or looking like navigation;
    recover rating and author; ratings outside [1,5] become 0. -/
def extractCommentFromHTML (html : Str) (today : Str) : Option Review :=
  if (commentText html).isEmpty ∨ (commentText html).length < 10 then none
  else if containsSubCS gamesLit (commentText html) && containsSubCS appsLit (commentText html)
          && containsSubCS moviesLit (commentText html) then none
  else
    some { text := commentText html
         , rating := if 1 ≤ ratingOf html ∧ ratingOf html ≤ 5 then ratingOf html else 0
         , date := today
         , author := authorOf html
         , helpful := 0
         , source := .html }

/-- A parsed JSON value (fractional numbers and unicode escapes are not
    modelled; the only string this service ever hands to JSON.parse starts
    with a tag bracket and is rejected before any number is read, see
    processScriptReviews_eq_nil). -/
inductive JVal where
  | null : JVal
  | bool (b : Bool) : JVal
  | num (n : Int) : JVal
  | str (s : Str) : JVal
  | arr (xs : List JVal) : JVal
  | obj (fields : List (Str × JVal)) : JVal
deriving Repr

/-- Translation of a JSON string escape character. -/
def jsonEsc (c : Char) : Char :=
  if c == 'n' then '\n'
  else if c == 't' then '\t'
  else if c == 'r' then '\r'
  else if c == 'b' then '\x08'
  else if c == 'f' then '\x0c'
  else c

/-- Parse a JSON string body after the opening quote; returns the content
    and the input after the closing quote. -/
def jsonStrAux : Str → Option (Str × Str)
  | [] => none
  | '"' :: t => some ([], t)
  | '\\' :: c :: t =>
    match jsonStrAux t with
    | some (s, r) => some (jsonEsc c :: s, r)
    | none => none
  | '\\' :: [] => none
  | c :: t =>
    match jsonStrAux t with
    | some (s, r) => some (c :: s, r)
    | none => none

/-- Parse a JSON integer (an optional minus sign and digits; a following
    fraction or exponent is rejected by this model). -/
def jsonNum (cs : Str) : Option (Int × Str) :=
  let neg : Bool := decide (cs.head? = some '-')
  let t := if neg then cs.tail else cs
  let ds := t.takeWhile isDigitChar
  if ds.isEmpty then none
  else
    match t.drop ds.length with
    | '.' :: _ => none
    | 'e' :: _ => none
    | 'E' :: _ => none
    | r => some (if neg then -(digitsVal ds : Int) else (digitsVal ds : Int), r)

/-- Drop leading JSON whitespace. -/
def skipWs (cs : Str) : Str := cs.dropWhile isSpaceChar

mutual

/-- Parse one JSON value; the leading character selects the production. -/
def jsonVal : Nat → Str → Option (JVal × Str)
  | 0, _ => none
  | fuel + 1, cs =>
    match skipWs cs with
    | [] => none
    | c :: r =>
      if c = '"' then
        match jsonStrAux r with
        | some (s, rest) => some (.str s, rest)
        | none => none
      else if c = '[' then jsonArrItems fuel (skipWs r) true
      else if c = '\x7b' then jsonObjItems fuel (skipWs r) true
      else if c = 't' then
        match pLitBy (fun p x => p == x) (("rue").data) r with
        | some (_, rest) => some (.bool true, rest)
        | none => none
      else if c = 'f' then
        match pLitBy (fun p x => p == x) (("alse").data) r with
        | some (_, rest) => some (.bool false, rest)
        | none => none
      else if c = 'n' then
        match pLitBy (fun p x => p == x) (("ull").data) r with
        | some (_, rest) => some (.null, rest)
        | none => none
      else
        match jsonNum (c :: r) with
        | some (n, rest) => some (.num n, rest)
        | none => none

/-- Parse the items of a JSON array; first is true before the first item. -/
def jsonArrItems : Nat → Str → Bool → Option (JVal × Str)
  | 0, _, _ => none
  | _ + 1, ']' :: r, true => some (.arr [], r)
  | fuel + 1, cs, _ =>
    match jsonVal fuel cs with
    | none => none
    | some (v, rest) =>
      match skipWs rest with
      | ',' :: r2 =>
        match jsonArrItems fuel (skipWs r2) false with
        | some (.arr xs, r3) => some (.arr (v :: xs), r3)
        | _ => none
      | ']' :: r2 => some (.arr [v], r2)
      | _ => none

/-- Parse the fields of a JSON object; first is true before the first field. -/
def jsonObjItems : Nat → Str → Bool → Option (JVal × Str)
  | 0, _, _ => none
  | _ + 1, '\x7d' :: r, true => some (.obj [], r)
  | fuel + 1, cs, _ =>
    match skipWs cs with
    | '"' :: r =>
      match jsonStrAux r with
      | none => none
      | some (k, rest) =>
        match skipWs rest with
        | ':' :: r2 =>
          match jsonVal fuel r2 with
          | none => none
          | some (v, r3) =>
            match skipWs r3 with
            | ',' :: r4 =>
              match jsonObjItems fuel (skipWs r4) false with
              | some (.obj fs, r5) => some (.obj ((k, v) :: fs), r5)
              | _ => none
            | '\x7d' :: r4 => some (.obj [(k, v)], r4)
            | _ => none
        | _ => none
    | _ => none

end

/-- JSON.parse: the whole input must be one value up to whitespace. -/
def jsonParse (cs : Str) : Option JVal :=
  match jsonVal (cs.length + 1) cs with
  | some (v, rest) => if (skipWs rest).isEmpty then some v else none
  | none => none

/-- Property access obj.key; undefined is modelled as none. -/
def jGet (v : JVal) (key : Str) : Option JVal :=
  match v with
  | .obj fields => lookupField fields key
  | _ => none
where
  lookupField : List (Str × JVal) → Str → Option JVal
    | [], _ => none
    | (k, v) :: rest, key => if k = key then some v else lookupField rest key

/-- JavaScript truthiness of a possibly-undefined value. -/
def jTruthy : Option JVal → Bool
  | none => false
  | some .null => false
  | some (.bool b) => b
  | some (.num n) => n != 0
  | some (.str s) => !s.isEmpty
  | some (.arr _) => true
  | some (.obj _) => true

/-- The JavaScript a || b on possibly-undefined values. -/
def jOr (a b : Option JVal) : Option JVal := if jTruthy a then a else b

/-- Digit string of a natural number. -/
def natToStr (n : Nat) : Str := Nat.toDigits 10 n

/-- Digit string of an integer. -/
def intToStr (n : Int) : Str := if n < 0 then '-' :: natToStr (-n).toNat else natToStr n.toNat

/-- Literal: default review text. -/
def noTextLit : Str := ("No text available").data

/-- Field names recognized by the embedded-data strategy. -/
def textFieldLit : Str := ("text").data

/-- Field name reviewText. -/
def reviewTextFieldLit : Str := ("reviewText").data

/-- Field name rating. -/
def ratingFieldLit : Str := ("rating").data

/-- Field name starRating. -/
def starRatingFieldLit : Str := ("starRating").data

/-- Field name date. -/
def dateFieldLit : Str := ("date").data

/-- Field name reviewDate. -/
def reviewDateFieldLit : Str := ("reviewDate").data

/-- Field name author. -/
def authorFieldLit : Str := ("author").data

/-- Field name userName. -/
def userNameFieldLit : Str := ("userName").data

/-- Field name helpful. -/
def helpfulFieldLit : Str := ("helpful").data

/-- Field name helpfulCount. -/
def helpfulCountFieldLit : Str := ("helpfulCount").data

/-- String content of a JSON value.  The source pushes the parsed value
    unchanged; this conversion only fixes the Lean field type and is never
    reached on real inputs (see processScriptReviews_eq_nil). -/
def jValToStr : JVal → Str
  | .str s => s
  | .num n => intToStr n
  | .bool true => ("true").data
  | .bool false => ("false").data
  | _ => []

/-- Integer content of a JSON value; same caveat as jValToStr. -/
def jValToInt : JVal → Int
  | .num n => n
  | _ => 0

/-- The canonical record built from one embedded-data entry
    (src/services/playStoreAPI.js lines 218-227). -/
def mkApiReview (e : JVal) (today : Str) : Review :=
  { text := jValToStr (match jOr (jOr (jGet e textFieldLit) (jGet e reviewTextFieldLit))
                         (some (.str noTextLit)) with
                       | some v => v
                       | none => .str noTextLit)
  , rating := jValToInt (match jOr (jOr (jGet e ratingFieldLit) (jGet e starRatingFieldLit))
                           (some (.num 0)) with
                         | some v => v
                         | none => .num 0)
  , date := jValToStr (match jOr (jOr (jGet e dateFieldLit) (jGet e reviewDateFieldLit))
                         (some (.str today)) with
                       | some v => v
                       | none => .str today)
  , author := jValToStr (match jOr (jOr (jGet e authorFieldLit) (jGet e userNameFieldLit))
                           (some (.str unknownLit)) with
                         | some v => v
                         | none => .str unknownLit)
  , helpful := jValToInt (match jOr (jOr (jGet e helpfulFieldLit) (jGet e helpfulCountFieldLit))
                            (some (.num 0)) with
                          | some v => v
                          | none => .num 0)
  , source := .api }

/-- The reviewsData.forEach of the embedded-data branch: entries without a
    truthy text or reviewText field are skipped; property access on a null
    entry throws, the surrounding catch keeps what was already pushed. -/
def forEachReviewsAux (limit : JSNum) (today : Str) : List JVal → List Review → List Review
  | [], acc => acc
  | e :: rest, acc =>
    if jsGe acc.length limit then forEachReviewsAux limit today rest acc
    else
      match e with
      | .null => acc
      | _ =>
        if jTruthy (jOr (jGet e textFieldLit) (jGet e reviewTextFieldLit)) then
          forEachReviewsAux limit today rest (acc ++ [mkApiReview e today])
        else forEachReviewsAux limit today rest acc

/-- The embedded-data branch of processReviewMatches: JSON.parse is applied
    to matches[1].  With a global regex, String.match returns only whole
    match strings, so matches[1] is the second whole match or undefined;
    a parse failure is caught and yields no records. -/
def processScriptReviews (matchList : List Str) (limit : JSNum) (today : Str) : List Review :=
  match matchList.get? 1 with
  | none => []
  | some m =>
    match jsonParse m with
    | none => []
    | some (.arr entries) => forEachReviewsAux limit today entries []
    | some _ => []

/-- A minimal record of the bare-text-field branch. -/
def mkTextReview (m : Str) (today : Str) : Review :=
  { text := m, rating := 0, date := today, author := unknownLit
  , helpful := 0, source := .api }

/-- The bare-text-field branch of processReviewMatches: the forEach skips
    index 0 (the source comment says it skips the whole-match slot) and
    pushes the whole match string as the record text. -/
def processTextMatchesAux (limit : JSNum) (today : Str) : Nat → List Str → List Review → List Review
  | _, [], acc => acc
  | idx, m :: ms, acc =>
    if jsGe acc.length limit then processTextMatchesAux limit today (idx + 1) ms acc
    else if idx > 0 then processTextMatchesAux limit today (idx + 1) ms (acc ++ [mkTextReview m today])
    else processTextMatchesAux limit today (idx + 1) ms acc

/-- Entry point of the bare-text-field branch. -/
def processTextMatches (matchList : List Str) (limit : JSNum) (today : Str) : List Review :=
  processTextMatchesAux limit today 0 matchList []

/-- The container branch of processReviewMatches: each whole match goes
    through extractCommentFromHTML; records with a truthy text are kept. -/
def processHTMLMatchesAux (limit : JSNum) (today : Str) : List Str → List Review → List Review
  | [], acc => acc
  | m :: ms, acc =>
    if jsGe acc.length limit then processHTMLMatchesAux limit today ms acc
    else
      match extractCommentFromHTML m today with
      | some c =>
        if c.text.isEmpty then processHTMLMatchesAux limit today ms acc
        else processHTMLMatchesAux limit today ms (acc ++ [c])
      | none => processHTMLMatchesAux limit today ms acc

/-- Entry point of the container branch. -/
def processHTMLMatches (matchList : List Str) (limit : JSNum) (today : Str) : List Review :=
  processHTMLMatchesAux limit today matchList []

/-- The four extraction patterns of extractReviewsFromHTML, in source
    order. -/
inductive RPattern where
  | divClassReview : RPattern
  | scriptReviews : RPattern
  | divDataTestid : RPattern
  | reviewTextField : RPattern
deriving Repr, DecidableEq

/-- html.match(pattern) for each pattern. -/
def patternMatches (p : RPattern) (html : Str) : List Str :=
  match p with
  | .divClassReview => gMatch (matchDivAt classMarkerLit) html
  | .scriptReviews => gMatch matchP2At html
  | .divDataTestid => gMatch (matchDivAt testidMarkerLit) html
  | .reviewTextField => gMatch matchP4At html

/-- PlayStoreAPI.processReviewMatches: the dispatch mirrors the
    pattern.source.includes checks, which select the embedded-data branch
    exactly for pattern 2 and the bare-text branch exactly for pattern 4. -/
def processReviewMatches (matchList : List Str) (p : RPattern) (limit : JSNum) (today : Str) : List Review :=
  match p with
  | .scriptReviews => processScriptReviews matchList limit today
  | .reviewTextField => processTextMatches matchList limit today
  | _ => processHTMLMatches matchList limit today

/-- The ordered pattern list of extractReviewsFromHTML. -/
def reviewPatterns : List RPattern :=
  [.divClassReview, .scriptReviews, .divDataTestid, .reviewTextField]

/-- The strategy loop of extractReviewsFromHTML: accumulate across
    patterns, stop once the running total reaches the limit. -/
def extractLoop (html : Str) (limit : JSNum) (today : Str) : List RPattern → List Review → List Review
  | [], comments => comments
  | p :: ps, comments =>
    if (patternMatches p html).isEmpty then extractLoop html limit today ps comments
    else
      if jsGe (comments ++ processReviewMatches (patternMatches p html) p limit today).length limit then
        comments ++ processReviewMatches (patternMatches p html) p limit today
      else
        extractLoop html limit today ps
          (comments ++ processReviewMatches (patternMatches p html) p limit today)

/-- PlayStoreAPI.extractReviewsFromHTML: run the strategy loop and
    truncate with slice(0, limit).  The today argument models the current
    date read inside record construction (new Date().toISOString()). -/
def extractReviewsFromHTML (html : Str) (limit : JSNum) (today : Str) : List Review :=
  jsSlice (extractLoop html limit today reviewPatterns []) limit

/-- Outcome of one retrieval strategy as seen by the orchestrator: the
    strategy throws (hypothetically escaping its own catch), degrades to
    an empty list after an internal error or non-200 status, or obtains a
    page body. -/
inductive StratOutcome where
  | throws : StratOutcome
  | errs : StratOutcome
  | page (html : Str) : StratOutcome
deriving Repr

/-- One retrieval strategy (fetchReviewsFromPage / fetchReviewsAlternative):
    network or status errors are caught inside and give an empty list; a
    page body goes through extractReviewsFromHTML. -/
def runRetrieval (o : StratOutcome) (limit : JSNum) (today : Str) : Except Unit (List Review) :=
  match o with
  | .throws => .error ()
  | .errs => .ok []
  | .page h => .ok (extractReviewsFromHTML h limit today)

/-- PlayStoreAPI.fetchComments: primary strategy, then the alternative if
    the primary yields nothing, then sample data; the surrounding
    try/catch converts an escaping exception into sample data.  The appId
    only parameterizes the requested URLs and never the returned value. -/
def fetchComments (_appId : Str) (o1 o2 : StratOutcome) (limit : JSNum) (today : Str) : List Review :=
  match runRetrieval o1 limit today with
  | .error _ => generateSampleReviews limit
  | .ok c1 =>
    if c1.isEmpty then
      match runRetrieval o2 limit today with
      | .error _ => generateSampleReviews limit
      | .ok c2 => if c2.isEmpty then generateSampleReviews limit else c2
    else c1

/-- A 400 response body of the validation middleware: the machine-readable
    error tag and the optional human message. -/
structure ErrResp where
  error : Str
  message : Option Str
deriving Repr, DecidableEq

/-- Literal: missing app id error. -/
def appIdRequiredLit : Str := ("App ID is required").data

/-- Literal: invalid app id error tag. -/
def invalidAppIdLit : Str := ("Invalid app ID format").data

/-- Literal: invalid limit error tag. -/
def invalidLimitLit : Str := ("Invalid limit parameter").data

/-- Literal: invalid sort error tag. -/
def invalidSortLit : Str := ("Invalid sort parameter").data

/-- Literal: batch body error for a missing, non-array or empty appIds. -/
def appIdsRequiredLit : Str := ("appIds array is required and must not be empty").data

/-- Literal: batch size error. -/
def maxTenLit : Str := ("Maximum 10 apps allowed per batch request").data

/-- Literal: app id format message. -/
def msgFormatLit : Str := ("App ID should contain only letters, numbers, dots, underscores, and hyphens, starting with a letter or number").data

/-- Literal: consecutive separator message. -/
def msgConsecLit : Str := ("App ID cannot contain consecutive dots, underscores, or hyphens").data

/-- Literal: single and stats limit message. -/
def msgLimitSingleLit : Str := ("Limit must be a number between 1 and 200").data

/-- Literal: batch limit message. -/
def msgLimitBatchLit : Str := ("Limit must be a number between 1 and 100 for batch requests").data

/-- Literal: sort options message. -/
def msgSortLit : Str := ("Sort must be one of: recent, rating, helpfulness").data

/-- The app id pattern of the middleware:
    one letter or digit followed by 2 to 99 characters of the class
    letters, digits, dot, underscore, hyphen. -/
def appIdPatternTest (cs : Str) : Bool :=
  match cs with
  | [] => false
  | c :: t =>
    isAlnumChar c
      && t.all (fun x => isAlnumChar x || x == '.' || x == '_' || x == '-')
      && decide (2 ≤ t.length) && decide (t.length ≤ 99)

/-- Literal: two dots. -/
def dotDotLit : Str := ("..").data

/-- Literal: two underscores. -/
def underUnderLit : Str := ("__").data

/-- Literal: two hyphens. -/
def dashDashLit : Str := ("--").data

/-- The validateAppId middleware: none means the request goes through. -/
def validateAppId (appId : Str) : Option ErrResp :=
  if appId.isEmpty then some { error := appIdRequiredLit, message := none }
  else if !appIdPatternTest appId then
    some { error := invalidAppIdLit, message := some msgFormatLit }
  else if containsSubCS dotDotLit appId || containsSubCS underUnderLit appId
          || containsSubCS dashDashLit appId then
    some { error := invalidAppIdLit, message := some msgConsecLit }
  else none

/-- The accepted sort options. -/
def validSortOptions : List Str := [("recent").data, ("rating").data, ("helpfulness").data]

/-- The check isNaN(n) or n < lo or n > hi of the limit validators. -/
def jsNumOutOfRange (n : JSNum) (lo hi : Int) : Bool :=
  match n with
  | .nan => true
  | .int v => v < lo || v > hi

/-- The sort-parameter part shared by the validators. -/
def validateSortParam (sortQ : Option Str) : Option ErrResp :=
  match sortQ with
  | some s =>
    if validSortOptions.contains s then none
    else some { error := invalidSortLit, message := some msgSortLit }
  | none => none

/-- The validateCommentParams middleware (exported by the middleware module
    but not mounted on any route): limit must parse to a number in
    [1, 200], sort must be a known option. -/
def validateCommentParams (limitQ sortQ : Option Str) : Option ErrResp :=
  match limitQ with
  | some s =>
    if jsNumOutOfRange (jsParseInt s) 1 200 then
      some { error := invalidLimitLit, message := some msgLimitSingleLit }
    else validateSortParam sortQ
  | none => validateSortParam sortQ

/-- The parsed JSON body of a batch request: appIds is none when the field
    is missing or not an array; body numbers are integral. -/
structure BatchBody where
  appIds : Option (List Str)
  limit : Option Int
  sort : Option Str
deriving Repr

/-- Literal prefix: per-index app id error. -/
def invalidIdxErr (i : Nat) : Str := ("Invalid app ID at index ").data ++ natToStr i

/-- Literal prefix: per-index app id format error. -/
def invalidIdxFmtErr (i : Nat) : Str := ("Invalid app ID format at index ").data ++ natToStr i

/-- Literal: non-empty string message. -/
def msgNonEmptyLit : Str := ("App ID must be a non-empty string").data

/-- The per-identifier loop of validateBatchRequest. -/
def validateBatchIds : Nat → List Str → Option ErrResp
  | _, [] => none
  | i, id :: rest =>
    if (trimWs id).isEmpty then
      some { error := invalidIdxErr i, message := some msgNonEmptyLit }
    else if !appIdPatternTest (trimWs id) then
      some { error := invalidIdxFmtErr i, message := some msgFormatLit }
    else if containsSubCS dotDotLit id || containsSubCS underUnderLit id
            || containsSubCS dashDashLit id then
      some { error := invalidIdxFmtErr i, message := some msgConsecLit }
    else validateBatchIds (i + 1) rest

/-- The validateBatchRequest middleware (exported but not mounted): array
    structure, size, per-identifier format, limit in [1, 100], sort. -/
def validateBatchRequest (body : BatchBody) : Option ErrResp :=
  match body.appIds with
  | none => some { error := ("appIds must be an array").data, message := none }
  | some ids =>
    if ids.isEmpty then some { error := ("appIds array cannot be empty").data, message := none }
    else if ids.length > 10 then some { error := maxTenLit, message := none }
    else
      match validateBatchIds 0 ids with
      | some e => some e
      | none =>
        match body.limit with
        | some n =>
          if jsNumOutOfRange (.int n) 1 100 then
            some { error := invalidLimitLit, message := some msgLimitBatchLit }
          else validateSortParam body.sort
        | none => validateSortParam body.sort

/-- Literal: the default sort. -/
def recentLit : Str := ("recent").data

/-- Response of the single-app route. -/
inductive SingleResp where
  | ok (appId : Str) (totalComments : Nat) (comments : List Review) (limitEcho : JSNum) (sortEcho : Str) : SingleResp
  | badRequest (e : ErrResp) : SingleResp
deriving Repr, DecidableEq

/-- GET /api/comments/:appId (src/routes/comments.js lines 12-46): the
    route mounts only validateAppId; the limit query string is passed
    through parseInt and handed to the orchestrator unchecked. -/
def handleGetComments (o1 o2 : StratOutcome) (today : Str) (appId : Str)
    (limitQ sortQ : Option Str) : SingleResp :=
  match validateAppId appId with
  | some e => .badRequest e
  | none =>
    let limitN : JSNum := match limitQ with | none => .int 50 | some s => jsParseInt s
    let sortS : Str := match sortQ with | none => recentLit | some s => s
    let comments := fetchComments appId o1 o2 limitN today
    .ok appId comments.length comments limitN sortS

/-- The averageRating value: the ternary in the stats route produces the
    number 0 or the string returned by toFixed(2). -/
inductive AvgVal where
  | num (n : Int) : AvgVal
  | str (s : Str) : AvgVal
deriving Repr, DecidableEq

/-- Increment the histogram count of a key (object bracket update). -/
def bumpKey {κ : Type} [DecidableEq κ] : List (κ × Nat) → κ → List (κ × Nat)
  | [], k => [(k, 1)]
  | (k0, n) :: rest, k =>
    if k0 = k then (k0, n + 1) :: rest else (k0, n) :: bumpKey rest k

/-- Accumulator of the stats forEach. -/
structure StatsAcc where
  ratingDistribution : List (Int × Nat)
  dateDistribution : List (Str × Nat)
  totalRating : Int
deriving Repr, DecidableEq

/-- One step of the stats forEach: bump the rating bucket (comment.rating
    with the or-zero default, which is the rating itself for integral
    ratings), bump the month bucket when the date is truthy, accumulate
    the total rating. -/
def statsStep (acc : StatsAcc) (c : Review) : StatsAcc :=
  { ratingDistribution := bumpKey acc.ratingDistribution c.rating
  , dateDistribution :=
      if c.date.isEmpty then acc.dateDistribution
      else bumpKey acc.dateDistribution (c.date.take 7)
  , totalRating := acc.totalRating + c.rating }

/-- The stats forEach over all comments. -/
def buildStatsAcc (comments : List Review) : StatsAcc :=
  comments.foldl statsStep { ratingDistribution := [], dateDistribution := [], totalRating := 0 }

/-- Two-digit rendering of a value below 100. -/
def pad2 (m : Nat) : Str := if m < 10 then '0' :: natToStr m else natToStr m

/-- Number.prototype.toFixed(2) on the quotient total / len: decimal
    rounding to 2 places, half away from zero on ties.  The quotient is
    modelled exactly over the rationals rather than through an IEEE-754
    double. -/
def toFixed2 (total : Int) (len : Nat) : Str :=
  let scaled : Int := (200 * total + (len : Int)) / (2 * (len : Int))
  natToStr (scaled / 100).toNat ++ '.' :: pad2 (scaled % 100).toNat

/-- The stats object of the statistics route. -/
structure Stats where
  totalComments : Nat
  ratingDistribution : List (Int × Nat)
  dateDistribution : List (Str × Nat)
  averageRating : AvgVal
  totalRating : Int
deriving Repr, DecidableEq

/-- The statistics computation of the stats route
    (src/routes/comments.js lines 144-170). -/
def computeStats (comments : List Review) : Stats :=
  let acc := buildStatsAcc comments
  { totalComments := comments.length
  , ratingDistribution := acc.ratingDistribution
  , dateDistribution := acc.dateDistribution
  , averageRating :=
      if comments.length > 0 then .str (toFixed2 acc.totalRating comments.length)
      else .num 0
  , totalRating := acc.totalRating }

/-- Response of the statistics route. -/
inductive StatsResp where
  | ok (appId : Str) (stats : Stats) (sampleSize : Nat) : StatsResp
  | badRequest (e : ErrResp) : StatsResp
deriving Repr, DecidableEq

/-- GET /api/comments/:appId/stats (src/routes/comments.js lines 132-192):
    mounts only validateAppId, defaults limit to 100. -/
def handleGetStats (o1 o2 : StratOutcome) (today : Str) (appId : Str)
    (limitQ : Option Str) : StatsResp :=
  match validateAppId appId with
  | some e => .badRequest e
  | none =>
    let limitN : JSNum := match limitQ with | none => .int 100 | some s => jsParseInt s
    let comments := fetchComments appId o1 o2 limitN today
    .ok appId (computeStats comments) comments.length

/-- The averageRating of a statistics response, when it is a 200. -/
def StatsResp.avg : StatsResp → Option AvgVal
  | .ok _ s _ => some s.averageRating
  | .badRequest _ => none

/-- One success entry of the batch results array. -/
structure BatchItem where
  appId : Str
  success : Bool
  totalComments : Nat
  comments : List Review
deriving Repr, DecidableEq

/-- One entry of the batch errors array. -/
structure BatchErrItem where
  appId : Str
  success : Bool
  error : Str
deriving Repr, DecidableEq

/-- The batch limit after the parseInt of the route: default 20, a body
    number passes through unchanged. -/
def batchLimitN (limit : Option Int) : JSNum :=
  match limit with
  | none => .int 20
  | some n => .int n

/-- Response of the batch route. -/
inductive BatchResp where
  | ok (totalApps successful failed : Nat) (results : List BatchItem)
      (errors : List BatchErrItem) (limitEcho : JSNum) : BatchResp
  | badRequest (error : Str) : BatchResp
deriving Repr, DecidableEq

/-- POST /api/comments/batch (src/routes/comments.js lines 53-125): inline
    structural checks on appIds, then a concurrent fan-out of
    fetchComments over the identifiers.  fetchComments always resolves
    (its whole body is inside try/catch, see fetchComments), so the
    per-item catch never runs and errors stays empty; results are listed
    here in identifier order, completion order being irrelevant to the
    stated properties. -/
def handleBatch (env : Str → StratOutcome × StratOutcome) (today : Str)
    (body : BatchBody) : BatchResp :=
  match body.appIds with
  | none => .badRequest appIdsRequiredLit
  | some ids =>
    if ids.isEmpty then .badRequest appIdsRequiredLit
    else if ids.length > 10 then .badRequest maxTenLit
    else
      let results := ids.map (fun id =>
        let cs := fetchComments id (env id).1 (env id).2 (batchLimitN body.limit) today
        { appId := id, success := true, totalComments := cs.length, comments := cs })
      .ok ids.length results.length 0 results [] (batchLimitN body.limit)

/-- The errors array of a batch response. -/
def BatchResp.errorsOf : BatchResp → List BatchErrItem
  | .ok _ _ _ _ errors _ => errors
  | .badRequest _ => []

/-- The results array of a batch response. -/
def BatchResp.resultsOf : BatchResp → List BatchItem
  | .ok _ _ _ results _ _ => results
  | .badRequest _ => []

/-- Whether a batch response is the HTTP 200 success shape. -/
def BatchResp.isOk : BatchResp → Bool
  | .ok _ _ _ _ _ _ => true
  | .badRequest _ => false

/-- The totalApps count of a batch response. -/
def BatchResp.totalAppsOf : BatchResp → Nat
  | .ok t _ _ _ _ _ => t
  | .badRequest _ => 0

/-- The successful count of a batch response. -/
def BatchResp.successfulOf : BatchResp → Nat
  | .ok _ s _ _ _ _ => s
  | .badRequest _ => 0

/-- The failed count of a batch response. -/
def BatchResp.failedOf : BatchResp → Nat
  | .ok _ _ f _ _ _ => f
  | .badRequest _ => 0

/-- Replace the date stamp of a record, for the date-parametricity of the
    extraction engine. -/
def setDate (d : Str) (r : Review) : Review := { r with date := d }

/-- Total of the counts of a histogram. -/
def sumCounts {κ : Type} (d : List (κ × Nat)) : Nat := (d.map Prod.snd).sum

/-- The averageRating value is a JSON number. -/
def avgIsNumber (a : Option AvgVal) : Prop := ∃ n : Int, a = some (AvgVal.num n)

/-- A concrete call date used in concrete evaluations. -/
def dateW : Str := ("2024-01-01").data

/-- A second concrete call date. -/
def dateW2 : Str := ("2024-01-02").data

/-- A concrete valid app identifier. -/
def whatsappLit : Str := ("com.whatsapp").data

/-- Markup with one inline script whose reviews key holds a well-formed
    array: the script regex matches it once. -/
def htmlC7 : Str := ("<script>\"reviews\": [\"Great app\"]</script>").data

/-- Markup with exactly one quoted reviewText value. -/
def htmlC8a : Str := ("\"reviewText\": \"Nice app!\"").data

/-- Markup with exactly two quoted reviewText values. -/
def htmlC8b : Str := ("\"reviewText\": \"aaa\" \"reviewText\": \"Nice app\"").data

/-- The second whole match of the reviewText regex inside htmlC8b. -/
def p4FullMatch2 : Str := ("\"reviewText\": \"Nice app\"").data

/-- A concrete identifier whose upstream is unreachable in envC5. -/
def failingAppLit : Str := ("com.failing.app").data

/-- A batch environment where the upstream retrievals of exactly one
    identifier fail (absorbed inside the strategies) and the primary page
    of every other identifier yields one extracted record. -/
def envC5 : Str → StratOutcome × StratOutcome :=
  fun id => if id = failingAppLit then (.errs, .errs) else (.page htmlC8b, .errs)

/-- A concrete structurally valid batch body containing the failing
    identifier. -/
def bodyC5 : BatchBody :=
  { appIds := some [whatsappLit, failingAppLit], limit := some 5, sort := none }

/-- The first record returned by a concrete orchestrator call, for the
    record-invariant witness. -/
def firstFetched : Review :=
  (fetchComments whatsappLit .errs .errs (.int 3) dateW).headI

/-- The stats object of a concrete statistics request served entirely from
    sample data. -/
def statsW : Stats :=
  computeStats (fetchComments whatsappLit .errs .errs (.int 100) dateW)

/-- A review block whose embedded rating is out of range. -/
def htmlRating7 : Str := ("x rating: 7 this text is long enough for extraction").data

/-- The record extracted from htmlRating7, whose out-of-range rating the
    code turns into 0. -/
def clampRec : Review := (extractCommentFromHTML htmlRating7 dateW).getD default

/-- Helper: the sample pool has ten entries. -/
theorem sampleReviews_length_eq : sampleReviews.length = 10 := rfl

/-- Helper: slicing with a non-negative integer end bounds the length. -/
theorem jsSlice_int_length_le {α : Type} (xs : List α) (n : Int) (h : 0 ≤ n) :
    ((jsSlice xs (.int n)).length : Int) ≤ n := by
  have e : jsSlice xs (.int n) = xs.take n.toNat := by
    simp [jsSlice, if_neg (show ¬ n < 0 by omega)]
  rw [e]
  have h2 : (xs.take n.toNat).length ≤ n.toNat := by
    rw [List.length_take]; omega
  omega

/-- Helper: the extraction engine never returns more than an integral
    non-negative limit. -/
theorem extract_length_le (html : Str) (n : Int) (today : Str) (h : 0 ≤ n) :
    ((extractReviewsFromHTML html (.int n) today).length : Int) ≤ n := by
  unfold extractReviewsFromHTML
  exact jsSlice_int_length_le _ n h

/-- Helper: sample output length for an integral limit of at least one. -/
theorem generateSampleReviews_length (n : Int) (h : 1 ≤ n) :
    1 ≤ (generateSampleReviews (.int n)).length ∧
    ((generateSampleReviews (.int n)).length : Int) ≤ n := by
  have e1 : generateSampleReviews (.int n) = sampleReviews.take (min n 10).toNat := by
    unfold generateSampleReviews
    norm_num [jsMin, jsSlice, sampleReviews_length_eq, if_neg (show ¬ min n 10 < 0 by omega)]
    omega
  rw [e1, List.length_take, sampleReviews_length_eq]
  constructor <;> omega

/-- C1: for every appId and every options with integer limit at least 1,
    fetchComments returns between 1 and limit records, whatever the
    retrieval outcomes and whatever page bodies extraction sees. -/
theorem fetchComments_len_bounds (appId : Str) (o1 o2 : StratOutcome) (n : Int) (today : Str)
    (h : 1 ≤ n) :
    1 ≤ (fetchComments appId o1 o2 (.int n) today).length ∧
    ((fetchComments appId o1 o2 (.int n) today).length : Int) ≤ n := by
  have hs := generateSampleReviews_length n h
  have hne : ∀ h2 : Str, ¬ (extractReviewsFromHTML h2 (.int n) today).isEmpty = true →
      1 ≤ (extractReviewsFromHTML h2 (.int n) today).length ∧
      ((extractReviewsFromHTML h2 (.int n) today).length : Int) ≤ n := by
    intro h2 he
    refine ⟨?_, extract_length_le h2 n today (by omega)⟩
    have hnil : extractReviewsFromHTML h2 (.int n) today ≠ [] := by
      simpa [List.isEmpty_iff] using he
    have hpos := List.length_pos.mpr hnil
    omega
  unfold fetchComments
  cases o1 with
  | throws => exact hs
  | errs =>
    simp only [runRetrieval, List.isEmpty_nil, if_true]
    cases o2 with
    | throws => exact hs
    | errs => simpa using hs
    | page h2 =>
      simp only [runRetrieval]
      by_cases he : (extractReviewsFromHTML h2 (.int n) today).isEmpty = true
      · rw [if_pos he]; exact hs
      · rw [if_neg he]; exact hne h2 he
  | page h1 =>
    simp only [runRetrieval]
    by_cases he1 : (extractReviewsFromHTML h1 (.int n) today).isEmpty = true
    · rw [if_pos he1]
      cases o2 with
      | throws => exact hs
      | errs => simpa using hs
      | page h2 =>
        simp only [runRetrieval]
        by_cases he2 : (extractReviewsFromHTML h2 (.int n) today).isEmpty = true
        · rw [if_pos he2]; exact hs
        · rw [if_neg he2]; exact hne h2 he2
    · rw [if_neg he1]; exact hne h1 he1

/-- Witness for C1 at appId com.whatsapp, failing retrievals and limit 5:
    the bounds hold concretely. -/
theorem fetchComments_len_bounds_witness :
    1 ≤ (fetchComments whatsappLit .errs .errs (.int 5) dateW).length ∧
    ((fetchComments whatsappLit .errs .errs (.int 5) dateW).length : Int) ≤ 5 :=
  fetchComments_len_bounds whatsappLit .errs .errs 5 dateW (by norm_num)

/-- C10: when the limit option is NaN, as parseInt produces on a
    non-numeric query value and the route passes through, fetchComments
    returns the empty array: every truncation becomes slice(0, NaN). -/
theorem fetchComments_nan_limit_empty :
    (∀ (appId : Str) (o1 o2 : StratOutcome) (today : Str),
        fetchComments appId o1 o2 .nan today = []) ∧
    jsParseInt (("abc").data) = .nan := by
  constructor
  · intro appId o1 o2 today
    have hext : ∀ h : Str, extractReviewsFromHTML h .nan today = [] := fun _ => rfl
    have hsam : generateSampleReviews .nan = [] := rfl
    cases o1 <;> cases o2 <;>
      simp [fetchComments, runRetrieval, hext, hsam]
  · decide

/-- C2: fetchComments never raises (it is a total function of the
    strategy outcomes) and follows the exact fallback order: the primary
    result is returned when non-empty; the secondary result is returned
    when the primary yields zero records and the secondary is non-empty;
    sample data is returned when both yield zero records or when an
    exception escapes either step. -/
theorem fetchComments_fallback_order (appId : Str) (o1 o2 : StratOutcome)
    (limit : JSNum) (today : Str) :
    (∀ h1 : Str, o1 = .page h1 → extractReviewsFromHTML h1 limit today ≠ [] →
        fetchComments appId o1 o2 limit today = extractReviewsFromHTML h1 limit today) ∧
    (∀ h2 : Str, runRetrieval o1 limit today = .ok [] → o2 = .page h2 →
        extractReviewsFromHTML h2 limit today ≠ [] →
        fetchComments appId o1 o2 limit today = extractReviewsFromHTML h2 limit today) ∧
    (runRetrieval o1 limit today = .ok [] → runRetrieval o2 limit today = .ok [] →
        fetchComments appId o1 o2 limit today = generateSampleReviews limit) ∧
    ((o1 = .throws ∨ (runRetrieval o1 limit today = .ok [] ∧ o2 = .throws)) →
        fetchComments appId o1 o2 limit today = generateSampleReviews limit) := by
  refine ⟨?_, ?_, ?_, ?_⟩
  · intro h1 ho1 hne
    subst ho1
    unfold fetchComments
    simp only [runRetrieval]
    rw [if_neg (by simpa [List.isEmpty_iff] using hne)]
  · intro h2 hro1 ho2 hne
    subst ho2
    unfold fetchComments
    rw [hro1]
    simp only [runRetrieval, List.isEmpty_nil, if_true]
    rw [if_neg (by simpa [List.isEmpty_iff] using hne)]
  · intro hro1 hro2
    unfold fetchComments
    rw [hro1]
    simp only [List.isEmpty_nil, if_true]
    rw [hro2]
    simp
  · intro hcase
    rcases hcase with ho1 | ⟨hro1, ho2⟩
    · subst ho1
      unfold fetchComments
      simp [runRetrieval]
    · subst ho2
      unfold fetchComments
      rw [hro1]
      simp [runRetrieval]

/-- Witness for C2: with a primary page whose extraction is non-empty the
    orchestrator returns exactly that extraction. -/
theorem fetchComments_fallback_order_witness :
    fetchComments whatsappLit (.page htmlC8b) .errs (.int 10) dateW
      = extractReviewsFromHTML htmlC8b (.int 10) dateW :=
  (fetchComments_fallback_order whatsappLit (.page htmlC8b) .errs (.int 10) dateW).1
    htmlC8b rfl (by decide)

/-- C4 (code bug): the middleware limit validators behave exactly as the
    claim states, rejecting out-of-range limits with 400 and passing the
    boundary values, but the routes never mount them: a single-app request
    with limit 999 passes validation and reaches the orchestrator, and the
    response is the 200 shape, against test 7 of src/test/test.js. -/
theorem limit_validation_not_mounted :
    validateCommentParams (some (("999").data)) none
      = some { error := invalidLimitLit, message := some msgLimitSingleLit } ∧
    validateCommentParams (some (("0").data)) none
      = some { error := invalidLimitLit, message := some msgLimitSingleLit } ∧
    validateCommentParams (some (("201").data)) none
      = some { error := invalidLimitLit, message := some msgLimitSingleLit } ∧
    validateCommentParams (some (("1").data)) none = none ∧
    validateCommentParams (some (("200").data)) none = none ∧
    validateBatchRequest { appIds := some [whatsappLit], limit := some 0, sort := none }
      = some { error := invalidLimitLit, message := some msgLimitBatchLit } ∧
    validateBatchRequest { appIds := some [whatsappLit], limit := some 101, sort := none }
      = some { error := invalidLimitLit, message := some msgLimitBatchLit } ∧
    validateBatchRequest { appIds := some [whatsappLit], limit := some 1, sort := none } = none ∧
    validateBatchRequest { appIds := some [whatsappLit], limit := some 100, sort := none } = none ∧
    handleGetComments .errs .errs dateW whatsappLit (some (("999").data)) none
      = .ok whatsappLit 10 (generateSampleReviews (.int 999)) (.int 999) recentLit := by
  decide

/-- C5 (counterexample): in a structurally valid batch where the upstream
    retrievals of exactly one identifier fail, the response is still 200
    but the entry of the failing identifier is in results, not in errors:
    the errors array is empty, because fetchComments absorbs every
    upstream failure and never rejects. -/
theorem batch_failing_upstream_not_in_errors :
    (handleBatch envC5 dateW bodyC5).isOk = true ∧
    (handleBatch envC5 dateW bodyC5).errorsOf = [] ∧
    (handleBatch envC5 dateW bodyC5).resultsOf.map BatchItem.appId
      = [whatsappLit, failingAppLit] := by
  decide

/-- C5 (amended): for every structurally valid batch request the response
    is 200 with successful plus failed equal to totalApps; errors is
    always empty, every identifier gets an entry in results, and an
    identifier whose upstream retrievals both fail gets an entry populated
    from the sample generator. -/
theorem batch_partition_and_results (env : Str → StratOutcome × StratOutcome) (today : Str)
    (ids : List Str) (limit : Option Int) (sort : Option Str)
    (hne : ids ≠ []) (hlen : ids.length ≤ 10) :
    (handleBatch env today { appIds := some ids, limit := limit, sort := sort }).isOk = true ∧
    (handleBatch env today { appIds := some ids, limit := limit, sort := sort }).successfulOf
      + (handleBatch env today { appIds := some ids, limit := limit, sort := sort }).failedOf
      = (handleBatch env today { appIds := some ids, limit := limit, sort := sort }).totalAppsOf ∧
    (handleBatch env today { appIds := some ids, limit := limit, sort := sort }).errorsOf = [] ∧
    (handleBatch env today { appIds := some ids, limit := limit, sort := sort }).resultsOf.map
        BatchItem.appId = ids ∧
    (∀ id ∈ ids, (env id).1 = .errs → (env id).2 = .errs →
      ({ appId := id, success := true
       , totalComments := (generateSampleReviews (batchLimitN limit)).length
       , comments := generateSampleReviews (batchLimitN limit) } : BatchItem)
        ∈ (handleBatch env today { appIds := some ids, limit := limit, sort := sort }).resultsOf) := by
  have hno : ¬ (ids.isEmpty = true) := by simpa [List.isEmpty_iff] using hne
  have hlt : ¬ (ids.length > 10) := by omega
  unfold handleBatch
  dsimp only
  rw [if_neg hno, if_neg hlt]
  refine ⟨rfl, ?_, rfl, ?_, ?_⟩
  · simp [BatchResp.successfulOf, BatchResp.failedOf, BatchResp.totalAppsOf]
  · simp only [BatchResp.resultsOf, List.map_map]
    have hid : (BatchItem.appId ∘ fun id : Str =>
        ({ appId := id, success := true
         , totalComments := (fetchComments id (env id).1 (env id).2 (batchLimitN limit) today).length
         , comments := fetchComments id (env id).1 (env id).2 (batchLimitN limit) today } : BatchItem))
        = fun id : Str => id := by
      funext id; rfl
    rw [hid]
    exact List.map_id ids
  · intro id hid henv1 henv2
    simp only [BatchResp.resultsOf]
    have hfc : fetchComments id (env id).1 (env id).2 (batchLimitN limit) today
        = generateSampleReviews (batchLimitN limit) := by
      rw [henv1, henv2]
      simp [fetchComments, runRetrieval]
    refine List.mem_map.mpr ⟨id, hid, ?_⟩
    simp [hfc]

/-- Witness for C5 (amended) at the concrete two-identifier batch with one
    unreachable upstream. -/
theorem batch_partition_and_results_witness :
    (handleBatch envC5 dateW { appIds := some [whatsappLit, failingAppLit], limit := some 5, sort := none }).isOk = true ∧
    (handleBatch envC5 dateW { appIds := some [whatsappLit, failingAppLit], limit := some 5, sort := none }).successfulOf
      + (handleBatch envC5 dateW { appIds := some [whatsappLit, failingAppLit], limit := some 5, sort := none }).failedOf
      = (handleBatch envC5 dateW { appIds := some [whatsappLit, failingAppLit], limit := some 5, sort := none }).totalAppsOf ∧
    (handleBatch envC5 dateW { appIds := some [whatsappLit, failingAppLit], limit := some 5, sort := none }).errorsOf = [] ∧
    (handleBatch envC5 dateW { appIds := some [whatsappLit, failingAppLit], limit := some 5, sort := none }).resultsOf.map
        BatchItem.appId = [whatsappLit, failingAppLit] ∧
    (∀ id ∈ [whatsappLit, failingAppLit], (envC5 id).1 = .errs → (envC5 id).2 = .errs →
      ({ appId := id, success := true
       , totalComments := (generateSampleReviews (batchLimitN (some 5))).length
       , comments := generateSampleReviews (batchLimitN (some 5)) } : BatchItem)
        ∈ (handleBatch envC5 dateW { appIds := some [whatsappLit, failingAppLit], limit := some 5, sort := none }).resultsOf) :=
  batch_partition_and_results envC5 dateW [whatsappLit, failingAppLit] (some 5) none
    (by decide) (by decide)

/-- Helper: bumping a histogram key increases the total count by one. -/
theorem sumCounts_bumpKey {κ : Type} [DecidableEq κ] (d : List (κ × Nat)) (k : κ) :
    sumCounts (bumpKey d k) = sumCounts d + 1 := by
  induction d with
  | nil => simp [bumpKey, sumCounts]
  | cons hd tl ih =>
    obtain ⟨k0, n⟩ := hd
    by_cases hk : k0 = k
    · simp [bumpKey, hk, sumCounts]
      omega
    · simp only [bumpKey, if_neg hk, sumCounts, List.map_cons, List.sum_cons] at ih ⊢
      omega

/-- Helper: the rating histogram counts every record exactly once. -/
theorem buildStatsAcc_rating_sum (comments : List Review) :
    sumCounts (buildStatsAcc comments).ratingDistribution = comments.length := by
  suffices h : ∀ acc, sumCounts ((comments.foldl statsStep acc).ratingDistribution)
      = sumCounts acc.ratingDistribution + comments.length by
    simpa [buildStatsAcc, sumCounts] using
      h { ratingDistribution := [], dateDistribution := [], totalRating := 0 }
  induction comments with
  | nil => intro acc; simp
  | cons c tl ih =>
    intro acc
    simp only [List.foldl_cons, List.length_cons]
    rw [ih]
    have hstep : sumCounts (statsStep acc c).ratingDistribution
        = sumCounts acc.ratingDistribution + 1 := by
      simp [statsStep, sumCounts_bumpKey]
    omega

/-- C6 (amended): in every 200 statistics response the rating histogram
    totals the comment count; averageRating is the number 0 when there are
    no comments and otherwise the toFixed(2) string of the rating sum over
    the count (a string, never NaN). -/
theorem stats_properties (o1 o2 : StratOutcome) (today appId : Str) (limitQ : Option Str)
    (stats : Stats) (sampleSize : Nat)
    (h : handleGetStats o1 o2 today appId limitQ = .ok appId stats sampleSize) :
    sumCounts stats.ratingDistribution = stats.totalComments ∧
    (stats.totalComments = 0 → stats.averageRating = .num 0) ∧
    (0 < stats.totalComments →
        stats.averageRating = .str (toFixed2 stats.totalRating stats.totalComments)) := by
  unfold handleGetStats at h
  cases hv : validateAppId appId with
  | some e => rw [hv] at h; cases h
  | none =>
    rw [hv] at h
    injection h with ha hb hc
    subst hb
    refine ⟨?_, ?_, ?_⟩
    · simpa [computeStats] using buildStatsAcc_rating_sum _
    · intro hz
      simp only [computeStats] at hz ⊢
      rw [if_neg (by omega)]
    · intro hp
      simp only [computeStats] at hp ⊢
      rw [if_pos (by omega)]

/-- Witness for C6 (amended) at a concrete statistics request served from
    sample data. -/
theorem stats_properties_witness :
    sumCounts statsW.ratingDistribution = statsW.totalComments ∧
    (statsW.totalComments = 0 → statsW.averageRating = .num 0) ∧
    (0 < statsW.totalComments →
        statsW.averageRating = .str (toFixed2 statsW.totalRating statsW.totalComments)) :=
  stats_properties .errs .errs dateW whatsappLit none statsW 10 (by decide)

/-- C6 (counterexample): with ten sample records the averageRating the
    code produces is the string returned by toFixed(2), not a number. -/
theorem stats_average_is_string_not_number :
    (handleGetStats .errs .errs dateW whatsappLit none).avg
      = some (AvgVal.str (("4.10").data)) ∧
    ¬ avgIsNumber (handleGetStats .errs .errs dateW whatsappLit none).avg := by
  constructor
  · decide
  · rintro ⟨n, hn⟩
    rw [(by decide : (handleGetStats .errs .errs dateW whatsappLit none).avg
        = some (AvgVal.str (("4.10").data)))] at hn
    exact absurd hn (by simp)

/-- Helper: a successful literal match against a non-empty pattern starts
    with a character accepted for the first pattern character. -/
theorem pLitBy_cons_elim {eqf : Char → Char → Bool} {p : Char} {ps cs m r}
    (h : pLitBy eqf (p :: ps) cs = some (m, r)) :
    ∃ c m' t, cs = c :: t ∧ m = c :: m' ∧ eqf p c = true := by
  cases cs with
  | nil => simp [pLitBy] at h
  | cons c t =>
    by_cases he : eqf p c = true
    · simp only [pLitBy, he, if_true] at h
      cases hrec : pLitBy eqf ps t with
      | none => rw [hrec] at h; cases h
      | some pr =>
        obtain ⟨m2, r2⟩ := pr
        rw [hrec] at h
        simp only [Option.some.injEq, Prod.mk.injEq] at h
        exact ⟨c, m2, t, rfl, by rw [← h.1], he⟩
    · simp [pLitBy, he] at h

/-- Helper: for a non-letter pattern character the case-insensitive
    comparison is plain equality. -/
theorem litCharMatch_nonalpha {p c : Char} (hp : isAlphaChar p = false)
    (h : litCharMatch p c = true) : c = p := by
  simp only [litCharMatch, hp, Bool.false_eq_true, if_false, beq_iff_eq] at h
  exact h

/-- Helper: every whole match of the script pattern starts with the tag
    bracket. -/
theorem matchP2At_head_lt {cs m r : Str} (h : matchP2At cs = some (m, r)) :
    ∃ t, m = '<' :: t := by
  unfold matchP2At at h
  cases hp : pLit scriptOpenLit cs with
  | none => rw [hp] at h; cases h
  | some pr =>
    obtain ⟨m1, r1⟩ := pr
    simp only [hp] at h
    have hp' : pLitBy litCharMatch ('<' :: ("script").data) cs = some (m1, r1) := hp
    obtain ⟨c, m', t, hcs, hm1, heq⟩ := pLitBy_cons_elim hp'
    have hc : c = '<' := litCharMatch_nonalpha (by decide) heq
    subst hc
    subst hm1
    split at h
    · split at h
      · simp only [Option.some.injEq, Prod.mk.injEq] at h
        exact ⟨_, h.1.symm⟩
      · cases h
    · cases h

/-- Helper: one step of the global scan, as a definitional equation. -/
theorem gMatchAux_succ (matchAt : Str → Option (Str × Str)) (f : Nat) (cs : Str) :
    gMatchAux matchAt (f + 1) cs =
      (match matchAt cs with
       | some (m, r) => m :: gMatchAux matchAt f r
       | none =>
         match cs with
         | [] => []
         | _ :: t => gMatchAux matchAt f t) := rfl

/-- Helper: a property of individual matches holds for every match of the
    global scan. -/
theorem gMatchAux_mem_prop {P : Str → Prop} {matchAt : Str → Option (Str × Str)}
    (hP : ∀ cs m r, matchAt cs = some (m, r) → P m) :
    ∀ (fuel : Nat) (cs : Str), ∀ m ∈ gMatchAux matchAt fuel cs, P m := by
  intro fuel
  induction fuel with
  | zero => intro cs m hm; simp [gMatchAux] at hm
  | succ f ih =>
    intro cs m hm
    rw [gMatchAux_succ] at hm
    cases hma : matchAt cs with
    | some pr =>
      obtain ⟨mm, r⟩ := pr
      simp only [hma] at hm
      rcases List.mem_cons.mp hm with h1 | h2
      · rw [h1]; exact hP cs mm r hma
      · exact ih r m h2
    | none =>
      simp only [hma] at hm
      cases cs with
      | nil => simp at hm
      | cons _ t => exact ih t m hm

/-- Helper: every whole match the script pattern produces on any markup
    starts with the tag bracket. -/
theorem gMatch_p2_head_lt (html : Str) : ∀ m ∈ gMatch matchP2At html, ∃ t, m = '<' :: t :=
  gMatchAux_mem_prop (fun _ _ _ h => matchP2At_head_lt h) _ html

/-- Helper: JSON.parse rejects any input starting with a tag bracket. -/
theorem jsonParse_lt_nil (t : Str) : jsonParse ('<' :: t) = none := by
  have hnum : jsonNum ('<' :: t) = none := by
    simp only [jsonNum, List.head?_cons,
      (by decide : decide ((some '<' : Option Char) = some '-') = false),
      Bool.false_eq_true, if_false,
      List.takeWhile_cons, (by decide : isDigitChar '<' = false)]
    simp
  have hval : jsonVal (('<' :: t).length + 1) ('<' :: t) = none := by
    unfold jsonVal
    have hws : skipWs ('<' :: t) = '<' :: t := by
      simp [skipWs, isSpaceChar]
    rw [hws]
    dsimp only
    rw [if_neg (by decide), if_neg (by decide), if_neg (by decide), if_neg (by decide),
        if_neg (by decide), if_neg (by decide), hnum]
  unfold jsonParse
  rw [hval]

/-- Helper: the embedded-data branch never produces a record when its
    matches come from the script pattern: matches[1] is a second whole
    match or undefined, and JSON.parse rejects both. -/
theorem processScriptReviews_eq_nil (ms : List Str) (limit : JSNum) (today : Str)
    (hms : ∀ m ∈ ms, ∃ t, m = '<' :: t) :
    processScriptReviews ms limit today = [] := by
  unfold processScriptReviews
  cases hg : ms.get? 1 with
  | none => simp [hg]
  | some m =>
    obtain ⟨t, ht⟩ := hms m (List.get?_mem hg)
    subst ht
    simp only [hg, jsonParse_lt_nil]

/-- Helper: the script pattern contributes nothing to the extraction
    output, for every markup, limit and date. -/
theorem scriptPattern_yields_nothing (html : Str) (limit : JSNum) (today : Str) :
    processReviewMatches (patternMatches .scriptReviews html) .scriptReviews limit today = [] :=
  processScriptReviews_eq_nil _ _ _ (gMatch_p2_head_lt html)

/-- C7 (code bug): the embedded-data strategy parses nothing, ever: with a
    global regex String.match returns whole matches only, so matches[1] is
    never the captured array and JSON.parse always throws.  Concretely, on
    markup holding one script with a well-formed reviews array the pattern
    does match, yet extraction emits no record at all. -/
theorem embedded_reviews_never_parsed :
    (∀ (html : Str) (limit : JSNum) (today : Str),
        processReviewMatches (patternMatches .scriptReviews html) .scriptReviews limit today = []) ∧
    gMatch matchP2At htmlC7 = [htmlC7] ∧
    extractReviewsFromHTML htmlC7 (.int 10) dateW = [] :=
  ⟨fun html limit today => scriptPattern_yields_nothing html limit today, by decide, by decide⟩

/-- C8 (code bug): the bare-text-field strategy drops the first real
    occurrence (the source comment believes index 0 is the regex
    whole-match slot, but a global match returns only whole matches) and
    the records it does emit carry the whole match, key included, as their
    text, not the quoted value. -/
theorem reviewText_strategy_skips_first_occurrence :
    gMatch matchP4At htmlC8a = [htmlC8a] ∧
    extractReviewsFromHTML htmlC8a (.int 10) dateW = [] ∧
    gMatch matchP4At htmlC8b = [("\"reviewText\": \"aaa\"").data, p4FullMatch2] ∧
    extractReviewsFromHTML htmlC8b (.int 10) dateW = [mkTextReview p4FullMatch2 dateW] := by
  refine ⟨by decide, by decide, by decide, by decide⟩

/-- Helper: every whole match of the bare-text pattern is non-empty. -/
theorem matchP4At_ne_nil {cs m r : Str} (h : matchP4At cs = some (m, r)) : m ≠ [] := by
  unfold matchP4At at h
  cases hp : pLit reviewTextKeyLit cs with
  | none => rw [hp] at h; cases h
  | some pr =>
    obtain ⟨m1, r1⟩ := pr
    simp only [hp] at h
    have hp' : pLitBy litCharMatch ('"' :: ("reviewText\":").data) cs = some (m1, r1) := hp
    obtain ⟨c, m', t, hcs, hm1, heq⟩ := pLitBy_cons_elim hp'
    subst hm1
    split at h
    · split at h
      · cases h
      · split at h
        · simp only [Option.some.injEq, Prod.mk.injEq] at h
          rw [← h.1]
          simp
        · cases h
    · cases h

/-- Helper: matches of the bare-text pattern over any markup are
    non-empty strings. -/
theorem gMatch_p4_ne_nil (html : Str) : ∀ m ∈ gMatch matchP4At html, m ≠ [] :=
  gMatchAux_mem_prop (fun _ _ _ h => matchP4At_ne_nil h) _ html

/-- Helper: every record built by extractCommentFromHTML has a non-empty
    text and a rating in the closed interval from 0 to 5. -/
theorem extractCommentFromHTML_props {html today : Str} {rec : Review}
    (h : extractCommentFromHTML html today = some rec) :
    rec.text ≠ [] ∧ 0 ≤ rec.rating ∧ rec.rating ≤ 5 := by
  unfold extractCommentFromHTML at h
  split at h
  · cases h
  · next hcond =>
    split at h
    · cases h
    · injection h with h1
      subst h1
      refine ⟨?_, ?_⟩
      · intro hnil
        dsimp only at hnil
        exact hcond (Or.inl (by simp [hnil]))
      · dsimp only
        split
        · next hin => omega
        · simp

/-- Helper: when the parsed rating is outside [1,5] the emitted record
    carries rating 0 and is still produced. -/
theorem extractCommentFromHTML_clamp {html today : Str} {n : Int} {rec : Review}
    (hf : findRating html = some n) (hout : ¬(1 ≤ n ∧ n ≤ 5))
    (h : extractCommentFromHTML html today = some rec) : rec.rating = 0 := by
  have hro : ratingOf html = n := by simp [ratingOf, hf]
  unfold extractCommentFromHTML at h
  split at h
  · cases h
  · split at h
    · cases h
    · injection h with h1
      subst h1
      dsimp only
      rw [hro, if_neg hout]

/-- Helper: records leaving the container branch come from
    extractCommentFromHTML or were already accumulated. -/
theorem processHTMLMatchesAux_mem (limit : JSNum) (today : Str) :
    ∀ (ms : List Str) (acc : List Review) (rec : Review),
      rec ∈ processHTMLMatchesAux limit today ms acc →
      rec ∈ acc ∨ ∃ m, extractCommentFromHTML m today = some rec := by
  intro ms
  induction ms with
  | nil => intro acc rec h; exact Or.inl (by simpa [processHTMLMatchesAux] using h)
  | cons m ms ih =>
    intro acc rec h
    unfold processHTMLMatchesAux at h
    split at h
    · exact ih acc rec h
    · cases he : extractCommentFromHTML m today with
      | none => rw [he] at h; exact ih acc rec h
      | some c =>
        simp only [he] at h
        split at h
        · exact ih acc rec h
        · rcases ih _ rec h with hacc | hex
          · rcases List.mem_append.mp hacc with h1 | h2
            · exact Or.inl h1
            · exact Or.inr ⟨m, by rw [he, List.mem_singleton.mp h2]⟩
          · exact hex.elim (fun m2 hm2 => Or.inr ⟨m2, hm2⟩)

/-- Helper: records leaving the bare-text branch are minimal records built
    from one of the matches, or were already accumulated. -/
theorem processTextMatchesAux_mem (limit : JSNum) (today : Str) :
    ∀ (ms : List Str) (idx : Nat) (acc : List Review) (rec : Review),
      rec ∈ processTextMatchesAux limit today idx ms acc →
      rec ∈ acc ∨ ∃ m ∈ ms, rec = mkTextReview m today := by
  intro ms
  induction ms with
  | nil => intro idx acc rec h; exact Or.inl (by simpa [processTextMatchesAux] using h)
  | cons m ms ih =>
    intro idx acc rec h
    unfold processTextMatchesAux at h
    split at h
    · rcases ih _ _ _ h with h1 | ⟨m2, hm2, he⟩
      · exact Or.inl h1
      · exact Or.inr ⟨m2, List.mem_cons_of_mem _ hm2, he⟩
    · split at h
      · rcases ih _ _ _ h with h1 | ⟨m2, hm2, he⟩
        · rcases List.mem_append.mp h1 with ha | hb
          · exact Or.inl ha
          · exact Or.inr ⟨m, List.mem_cons_self _ _, List.mem_singleton.mp hb⟩
        · exact Or.inr ⟨m2, List.mem_cons_of_mem _ hm2, he⟩
      · rcases ih _ _ _ h with h1 | ⟨m2, hm2, he⟩
        · exact Or.inl h1
        · exact Or.inr ⟨m2, List.mem_cons_of_mem _ hm2, he⟩

/-- Helper: records leaving the strategy loop were accumulated or come
    from one of the patterns. -/
theorem extractLoop_mem (html : Str) (limit : JSNum) (today : Str) :
    ∀ (ps : List RPattern) (acc : List Review) (rec : Review),
      rec ∈ extractLoop html limit today ps acc →
      rec ∈ acc ∨ ∃ p ∈ ps, rec ∈ processReviewMatches (patternMatches p html) p limit today := by
  intro ps
  induction ps with
  | nil => intro acc rec h; exact Or.inl (by simpa [extractLoop] using h)
  | cons p ps ih =>
    intro acc rec h
    unfold extractLoop at h
    split at h
    · rcases ih _ _ h with h1 | ⟨p2, hp2, hm⟩
      · exact Or.inl h1
      · exact Or.inr ⟨p2, List.mem_cons_of_mem _ hp2, hm⟩
    · split at h
      · rcases List.mem_append.mp h with h1 | h2
        · exact Or.inl h1
        · exact Or.inr ⟨p, List.mem_cons_self _ _, h2⟩
      · rcases ih _ _ h with h1 | ⟨p2, hp2, hm⟩
        · rcases List.mem_append.mp h1 with ha | hb
          · exact Or.inl ha
          · exact Or.inr ⟨p, List.mem_cons_self _ _, hb⟩
        · exact Or.inr ⟨p2, List.mem_cons_of_mem _ hp2, hm⟩

/-- Helper: slicing only returns elements of the underlying array. -/
theorem mem_jsSlice {α : Type} {xs : List α} {e : JSNum} {a : α}
    (h : a ∈ jsSlice xs e) : a ∈ xs := by
  cases e with
  | nan => simp [jsSlice] at h
  | int n =>
    simp only [jsSlice] at h
    split at h <;> exact List.take_subset _ _ h

/-- Helper: every sample record has non-empty text and a rating between 0
    and 5. -/
theorem sampleReviews_props :
    ∀ rec ∈ sampleReviews, rec.text ≠ [] ∧ 0 ≤ rec.rating ∧ rec.rating ≤ 5 := by decide

/-- Helper: every record leaving the extraction engine has non-empty text
    and a rating between 0 and 5. -/
theorem extract_mem_props {html : Str} {limit : JSNum} {today : Str} {rec : Review}
    (h : rec ∈ extractReviewsFromHTML html limit today) :
    rec.text ≠ [] ∧ 0 ≤ rec.rating ∧ rec.rating ≤ 5 := by
  have h2 : rec ∈ extractLoop html limit today reviewPatterns [] := mem_jsSlice h
  rcases extractLoop_mem html limit today reviewPatterns [] rec h2 with h3 | ⟨p, _, hm⟩
  · simp at h3
  · cases p with
    | divClassReview =>
      rcases processHTMLMatchesAux_mem limit today _ [] rec hm with h4 | ⟨m, hex⟩
      · simp at h4
      · exact extractCommentFromHTML_props hex
    | divDataTestid =>
      rcases processHTMLMatchesAux_mem limit today _ [] rec hm with h4 | ⟨m, hex⟩
      · simp at h4
      · exact extractCommentFromHTML_props hex
    | scriptReviews =>
      rw [scriptPattern_yields_nothing] at hm
      simp at hm
    | reviewTextField =>
      rcases processTextMatchesAux_mem limit today _ 0 [] rec hm with h4 | ⟨m, hmem, he⟩
      · simp at h4
      · subst he
        exact ⟨gMatch_p4_ne_nil html m hmem, by simp [mkTextReview]⟩

/-- Helper: every record the orchestrator hands to a caller has non-empty
    text and a rating between 0 and 5. -/
theorem fetchComments_mem_props {appId : Str} {o1 o2 : StratOutcome} {limit : JSNum}
    {today : Str} {rec : Review}
    (h : rec ∈ fetchComments appId o1 o2 limit today) :
    rec.text ≠ [] ∧ 0 ≤ rec.rating ∧ rec.rating ≤ 5 := by
  have hsam : ∀ r ∈ generateSampleReviews limit,
      r.text ≠ [] ∧ 0 ≤ r.rating ∧ r.rating ≤ 5 :=
    fun r hr => sampleReviews_props r (mem_jsSlice hr)
  unfold fetchComments at h
  cases o1 with
  | throws => exact hsam rec h
  | errs =>
    simp only [runRetrieval, List.isEmpty_nil, if_true] at h
    cases o2 with
    | throws => exact hsam rec h
    | errs => exact hsam rec (by simpa using h)
    | page h2 =>
      simp only [runRetrieval] at h
      split at h
      · exact hsam rec h
      · exact extract_mem_props h
  | page h1 =>
    simp only [runRetrieval] at h
    split at h
    · cases o2 with
      | throws => exact hsam rec h
      | errs => exact hsam rec (by simpa using h)
      | page h2 =>
        simp only [runRetrieval] at h
        split at h
        · exact hsam rec h
        · exact extract_mem_props h
    · exact extract_mem_props h

/-- C3: every record returned to a caller, whether from extraction or the
    sample generator, has non-empty text and an integer rating in [0,5];
    blocks without usable text are dropped during extraction (they never
    produce a record), and a parsed rating outside [1,5] becomes 0 instead
    of rejecting the record. -/
theorem review_record_invariant :
    (∀ (appId : Str) (o1 o2 : StratOutcome) (limit : JSNum) (today : Str) (rec : Review),
        rec ∈ fetchComments appId o1 o2 limit today →
        rec.text ≠ [] ∧ 0 ≤ rec.rating ∧ rec.rating ≤ 5) ∧
    (∀ (html today : Str) (n : Int) (rec : Review),
        findRating html = some n → ¬(1 ≤ n ∧ n ≤ 5) →
        extractCommentFromHTML html today = some rec → rec.rating = 0) :=
  ⟨fun _ _ _ _ _ _ h => fetchComments_mem_props h,
   fun _ _ _ _ hf hout h => extractCommentFromHTML_clamp hf hout h⟩

/-- Witness for C3: a concrete sample-served record satisfies the
    invariant, and a concrete block with rating 7 is kept with rating 0. -/
theorem review_record_invariant_witness :
    (firstFetched.text ≠ [] ∧ 0 ≤ firstFetched.rating ∧ firstFetched.rating ≤ 5) ∧
    clampRec.rating = 0 :=
  ⟨review_record_invariant.1 whatsappLit .errs .errs (.int 3) dateW firstFetched (by decide),
   review_record_invariant.2 htmlRating7 dateW 7 clampRec (by decide) (by decide) (by decide)⟩

/-- Helper: extractCommentFromHTML depends on the call date only through
    the date stamped into the record. -/
theorem extractCommentFromHTML_setDate (html t1 t2 : Str) :
    extractCommentFromHTML html t1 = (extractCommentFromHTML html t2).map (setDate t1) := by
  unfold extractCommentFromHTML
  by_cases hC : (commentText html).isEmpty = true ∨ (commentText html).length < 10
  · rw [if_pos hC, if_pos hC]; rfl
  · rw [if_neg hC, if_neg hC]
    by_cases hD : (containsSubCS gamesLit (commentText html)
        && containsSubCS appsLit (commentText html)
        && containsSubCS moviesLit (commentText html)) = true
    · rw [if_pos hD, if_pos hD]; rfl
    · rw [if_neg hD, if_neg hD]; rfl

/-- Helper: the container branch depends on the call date only through the
    date stamps. -/
theorem processHTMLMatchesAux_setDate (limit : JSNum) (t1 t2 : Str) :
    ∀ (ms : List Str) (acc : List Review),
      processHTMLMatchesAux limit t1 ms (acc.map (setDate t1))
        = (processHTMLMatchesAux limit t2 ms acc).map (setDate t1) := by
  intro ms
  induction ms with
  | nil => intro acc; rfl
  | cons m ms ih =>
    intro acc
    unfold processHTMLMatchesAux
    rw [List.length_map]
    by_cases hge : jsGe acc.length limit = true
    · rw [if_pos hge, if_pos hge]
      exact ih acc
    · rw [if_neg hge, if_neg hge]
      rw [extractCommentFromHTML_setDate m t1 t2]
      cases he : extractCommentFromHTML m t2 with
      | none => exact ih acc
      | some c =>
        simp only [Option.map_some']
        have htext : (setDate t1 c).text = c.text := rfl
        rw [htext]
        by_cases ht : c.text.isEmpty = true
        · rw [if_pos ht, if_pos ht]
          exact ih acc
        · rw [if_neg ht, if_neg ht]
          have : acc.map (setDate t1) ++ [setDate t1 c] = (acc ++ [c]).map (setDate t1) := by
            simp
          rw [this]
          exact ih (acc ++ [c])

/-- Helper: the bare-text branch depends on the call date only through the
    date stamps. -/
theorem processTextMatchesAux_setDate (limit : JSNum) (t1 t2 : Str) :
    ∀ (ms : List Str) (idx : Nat) (acc : List Review),
      processTextMatchesAux limit t1 idx ms (acc.map (setDate t1))
        = (processTextMatchesAux limit t2 idx ms acc).map (setDate t1) := by
  intro ms
  induction ms with
  | nil => intro idx acc; rfl
  | cons m ms ih =>
    intro idx acc
    unfold processTextMatchesAux
    rw [List.length_map]
    by_cases hge : jsGe acc.length limit = true
    · rw [if_pos hge, if_pos hge]
      exact ih (idx + 1) acc
    · rw [if_neg hge, if_neg hge]
      by_cases hidx : idx > 0
      · rw [if_pos hidx, if_pos hidx]
        have : acc.map (setDate t1) ++ [mkTextReview m t1]
            = (acc ++ [mkTextReview m t2]).map (setDate t1) := by
          simp [mkTextReview, setDate]
        rw [this]
        exact ih (idx + 1) (acc ++ [mkTextReview m t2])
      · rw [if_neg hidx, if_neg hidx]
        exact ih (idx + 1) acc

/-- Helper: the strategy loop depends on the call date only through the
    date stamps. -/
theorem extractLoop_setDate (html : Str) (limit : JSNum) (t1 t2 : Str) :
    ∀ (ps : List RPattern) (acc : List Review),
      extractLoop html limit t1 ps (acc.map (setDate t1))
        = (extractLoop html limit t2 ps acc).map (setDate t1) := by
  intro ps
  induction ps with
  | nil => intro acc; rfl
  | cons p ps ih =>
    intro acc
    unfold extractLoop
    by_cases hms : (patternMatches p html).isEmpty = true
    · rw [if_pos hms, if_pos hms]
      exact ih acc
    · rw [if_neg hms, if_neg hms]
      have hproc : processReviewMatches (patternMatches p html) p limit t1
          = (processReviewMatches (patternMatches p html) p limit t2).map (setDate t1) := by
        cases p with
        | scriptReviews =>
          rw [scriptPattern_yields_nothing, scriptPattern_yields_nothing]
          rfl
        | reviewTextField =>
          simpa [processReviewMatches, processTextMatches] using
            processTextMatchesAux_setDate limit t1 t2 (patternMatches .reviewTextField html) 0 []
        | divClassReview =>
          simpa [processReviewMatches, processHTMLMatches] using
            processHTMLMatchesAux_setDate limit t1 t2 (patternMatches .divClassReview html) []
        | divDataTestid =>
          simpa [processReviewMatches, processHTMLMatches] using
            processHTMLMatchesAux_setDate limit t1 t2 (patternMatches .divDataTestid html) []
      have happ : acc.map (setDate t1) ++ processReviewMatches (patternMatches p html) p limit t1
          = (acc ++ processReviewMatches (patternMatches p html) p limit t2).map (setDate t1) := by
        rw [hproc, List.map_append]
      rw [happ, List.length_map]
      by_cases hge : jsGe (acc ++ processReviewMatches (patternMatches p html) p limit t2).length
          limit = true
      · rw [if_pos hge, if_pos hge]
      · rw [if_neg hge, if_neg hge]
        exact ih (acc ++ processReviewMatches (patternMatches p html) p limit t2)

/-- Helper: slicing commutes with mapping. -/
theorem jsSlice_map {α β : Type} (f : α → β) (xs : List α) (e : JSNum) :
    jsSlice (xs.map f) e = (jsSlice xs e).map f := by
  cases e with
  | nan => rfl
  | int n =>
    simp only [jsSlice, List.length_map]
    split <;> rw [List.map_take]

/-- C9 (amended): the extraction engine is a total function of markup,
    limit and the current date; for a fixed date it is deterministic, and
    outputs for two different call dates agree after re-stamping the date
    field, so the date is the only impurity. -/
theorem extract_date_parametricity (html : Str) (limit : JSNum) (t1 t2 : Str) :
    extractReviewsFromHTML html limit t1
      = (extractReviewsFromHTML html limit t2).map (setDate t1) := by
  unfold extractReviewsFromHTML
  have h := extractLoop_setDate html limit t1 t2 reviewPatterns []
  simp only [List.map_nil] at h
  rw [h, jsSlice_map]

/-- C9 (counterexample): on markup with two bare text fields the engine
    emits a record stamped with the call date, so two calls with identical
    markup and limit on different dates yield different output. -/
theorem extract_depends_on_call_date :
    extractReviewsFromHTML htmlC8b (.int 5) dateW
      ≠ extractReviewsFromHTML htmlC8b (.int 5) dateW2 := by
  decide

end PlayStore
